import Mathlib

/-!
Shallow embedding of the `astrbot_plugin_wakepro` plugin (files
`similarity.py` and `main.py`) and proofs about the claims of its
specification.

Floats are modelled as real numbers (`ℝ`) in the similarity scorer,
where `math.log` / `math.exp` / `math.sqrt` appear, and as rationals
(`ℚ`) in the wake evaluator, which only ever adds, multiplies and
compares configuration values, timestamps and sentiment scores.
-/

namespace Similarity

/-- Python's `needle in hay` on strings: contiguous substring test. -/
def strIn (needle hay : String) : Bool :=
  decide (needle.toList <:+: hay.toList)

/-- `STOP` — the stop-word table of `similarity.py`. -/
def STOP : List String :=
  ["的", "了", "在", "是", "和", "与", "或", "这", "那", "我", "你", "他", "她", "它"]

/-- A character in the core ideographic range `一`-`龥`. -/
def isCJKChar (c : Char) : Bool :=
  0x4e00 ≤ c.toNat && c.toNat ≤ 0x9fa5

/-- `re.match(r"^[一-龥]+$", word)`: nonempty and all chars in range. -/
def isCJKWord (w : String) : Bool :=
  w.length > 0 && w.toList.all isCJKChar

/-- The caching filter of `_update_topic_cache`: not a stop word, length > 1,
and made of core-alphabet word characters only. -/
def qualifies (w : String) : Bool :=
  !(STOP.contains w) && w.length > 1 && isCJKWord w

/-- `deque(maxlen=20).append`: append on the right, evicting from the left
when the bound of 20 is exceeded. -/
def dequeAppend (q : List String) (w : String) : List String :=
  let q' := q ++ [w]
  q'.drop (q'.length - 20)

/-- The cache-update loop of `_update_topic_cache`: append every qualifying
word of the batch to the bounded FIFO. -/
def cacheAppendAll (cache : List String) (words : List String) : List String :=
  words.foldl (fun q w => if qualifies w then dequeAppend q w else q) cache

/-- `freq_counter`: one entry per distinct word of the FIFO, valued at the
number of its occurrences in the FIFO. -/
def freqList (cache : List String) : List (String × ℕ) :=
  cache.dedup.map (fun w => (w, cache.count w))

/-- The weight-update loop of `_update_topic_cache`, iterating over the
frequency table: `TOPIC_WEIGHTS[word] = max(old * 0.95, count * (1 + log len))`. -/
noncomputable def updateWeightsFold (W : String → ℝ) : List (String × ℕ) → (String → ℝ)
  | [] => W
  | (w, c) :: rest =>
      updateWeightsFold
        (fun x => if x = w then
            max (W w * (0.95 : ℝ)) ((c : ℝ) * (1 + Real.log (w.length : ℝ)))
          else W x) rest

/-- The mutable class state of `Similarity`: `TOPIC_CACHE` and `TOPIC_WEIGHTS`
(a `defaultdict(float)`, modelled as a total function defaulting to 0). -/
structure SimState where
  cache : List String
  weights : String → ℝ

/-- `Similarity._update_topic_cache`. -/
noncomputable def update_topic_cache (st : SimState) (words : List String) : SimState :=
  let cache' := cacheAppendAll st.cache words
  { cache := cache', weights := updateWeightsFold st.weights (freqList cache') }

/-- The character class kept by the cleaning regex
`re.sub(r"[^\w\s一-龥]", "", s)`: word characters, whitespace,
or the core ideographic range. -/
def keepChar (c : Char) : Bool :=
  c.isAlphanum || c = '_' || c.isWhitespace || isCJKChar c

/-- The text cleaning step of `_extract_keywords`. -/
def cleanStr (s : String) : String :=
  String.mk (s.toList.filter keepChar)

/-- Python `str.isdigit`: nonempty and all digits. -/
def isDigitStr (w : String) : Bool :=
  w ≠ "" && w.toList.all Char.isDigit

/-- Last character of a (nonempty) token, used for `merged[-1][-1].isdigit()`. -/
def lastChar (w : String) : Char :=
  w.toList.getLastD ' '

/-- One step of the merge loop of `_extract_keywords`: glue a word onto the
last merged token when both are digits or both are single characters. -/
def mergeStep (acc : List String) (word : String) : List String :=
  match acc.getLast? with
  | some prev =>
      if (isDigitStr word && (lastChar prev).isDigit)
          || (prev.length == 1 && word.length == 1) then
        acc.dropLast ++ [prev ++ word]
      else acc ++ [word]
  | none => [word]

/-- The merge loop of `_extract_keywords` over the whole word list. -/
def mergeWords (ws : List String) : List String :=
  ws.foldl mergeStep []

/-- The pure part of `_extract_keywords`: clean, segment, filter, merge.
The word segmenter `seg` models `jieba.lcut`, an external library, and is
passed as a parameter. -/
def extract_keywords_words (seg : String → List String) (s : String) : List String :=
  let s' := cleanStr s
  let words := (seg s').filter (fun w => w.trim ≠ "" && !(STOP.contains w))
  mergeWords words

/-- `Similarity._extract_keywords`: returns the merged words and, as a side
effect, the updated topic cache. -/
noncomputable def extract_keywords (seg : String → List String) (st : SimState)
    (s : String) : List String × SimState :=
  let merged := extract_keywords_words seg s
  (merged, update_topic_cache st merged)

/-- Python dict `tf[k] += v` on a `defaultdict(float)` modelled as an
association list with unique keys, in insertion order. -/
def dictAdd (d : List (String × ℝ)) (k : String) (v : ℝ) : List (String × ℝ) :=
  if d.any (fun p => p.1 = k) then
    d.map (fun p => if p.1 = k then (p.1, p.2 + v) else p)
  else d ++ [(k, v)]

/-- Dict lookup with default 0, for `v.get(w, 0)`. -/
def lookupD (d : List (String × ℝ)) (k : String) : ℝ :=
  match d.find? (fun p => p.1 = k) with
  | some p => p.2
  | none => 0

/-- `Similarity._tokens`: build the L1-normalized weighted term vector of a
text (unigrams weighted `1 + TOPIC_WEIGHTS[w]`, adjacent bigrams weighted
`1.5`), updating the topic cache as a side effect. -/
noncomputable def tokens (seg : String → List String) (st : SimState)
    (s : String) : List (String × ℝ) × SimState :=
  let e := extract_keywords seg st s
  let words := e.1
  let tf0 := words.foldl (fun d w => dictAdd d w (1.0 + e.2.weights w)) []
  -- `for i in range(len(words) - 1): tf[words[i] + words[i+1]] += 1.5`
  let tf1 := (words.zip words.tail).foldl (fun d p => dictAdd d (p.1 ++ p.2) 1.5) tf0
  let total := max ((tf1.map (fun p => p.2)).sum) 1
  (tf1.map (fun p => (p.1, p.2 / total)), e.2)

/-- The enhanced dot product of `Similarity.cosine`: shared terms are boosted
by `2.0 + TOPIC_WEIGHTS[w]`; one-sided terms contribute `v1*v2 = 0`. -/
noncomputable def enhancedDot (v1 v2 : List (String × ℝ)) (W : String → ℝ) : ℝ :=
  (((v1.map Prod.fst ++ v2.map Prod.fst).dedup).map (fun w =>
    let val1 := lookupD v1 w
    let val2 := lookupD v2 w
    if val1 > 0 ∧ val2 > 0 then val1 * val2 * (2.0 + W w) else val1 * val2)).sum

/-- Euclidean norm of a term vector, `math.sqrt(sum(val**2 for val in v.values()))`. -/
noncomputable def vecNorm (v : List (String × ℝ)) : ℝ :=
  Real.sqrt ((v.map (fun p => p.2 ^ 2)).sum)

/-- The raw cosine of `Similarity.cosine`, before the sigmoid:
`dot / (norm1 * norm2 + 1e-8)`. -/
noncomputable def raw_score (seg : String → List String) (st : SimState)
    (a b : String) : ℝ :=
  let t1 := tokens seg st a
  let t2 := tokens seg t1.2 b
  enhancedDot t1.1 t2.1 t2.2.weights / (vecNorm t1.1 * vecNorm t2.1 + 1e-8)

/-- `Similarity.cosine`: the final sigmoid-squashed similarity score together
with the topic-cache state after both `_tokens` calls. -/
noncomputable def cosine (seg : String → List String) (st : SimState)
    (a b : String) : ℝ × SimState :=
  let t1 := tokens seg st a
  let t2 := tokens seg t1.2 b
  let dot := enhancedDot t1.1 t2.1 t2.2.weights
  let denominator := vecNorm t1.1 * vecNorm t2.1 + 1e-8
  let rawScore := dot / denominator
  (1 / (1 + Real.exp (-8 * (rawScore - 0.6))), t2.2)

end Similarity

namespace WakePro

open Similarity (strIn)

/-- `BUILT_CMDS` — the built-in command text fragments blocked by `main.py`. -/
def BUILT_CMDS : List String :=
  ["t2i", "tts", "sid", "op", "wl", "dashboard_update", "alter_cmd", "provider",
   "model", "ls", "new", "switch 序号", "rename 新名字", "del", "reset", "history",
   "persona", "tool ls", "key", "websearch"]

/-- A group-chat message event, reduced to the fields `on_group_msg` reads
and writes: its text, the upstream at-or-wake flag, whether `stop_event` has
been called on it, and whether its component chain is exactly one `At`
segment (recording that segment's target id). -/
structure Event where
  message_str : String
  is_at_or_wake_command : Bool
  stopped : Bool := false
  single_at : Option String := none
  deriving DecidableEq

/-- `event.stop_event()`. -/
def Event.stop (e : Event) : Event := { e with stopped := true }

/-- `MemberState` of `main.py`. The `asyncio.Lock` is not modelled: one
invocation is embedded as a sequential function. -/
structure MemberState where
  uid : String
  silence_until : ℚ := 0
  msg_times : List ℚ := []
  last_wake : ℚ := 0
  pend_cd : ℚ := 0
  pend : List Event := []
  deriving DecidableEq

/-- `GroupState` of `main.py`; the member dict is a total map into `Option`. -/
structure GroupState where
  gid : String
  members : String → Option MemberState := fun _ => none
  shutup_until : ℚ := 0

/-- `StateManager._groups`: the group-id-indexed state store. -/
def Store := String → Option GroupState

/-- Dict insertion/overwrite on the store. -/
def Store.put (s : Store) (gid : String) (g : GroupState) : Store :=
  fun x => if x = gid then some g else s x

/-- In-place mutation of one member entry of a group's member dict. -/
def GroupState.setMember (g : GroupState) (uid : String) (m : MemberState) :
    GroupState :=
  { g with members := fun u => if u = uid then some m else g.members u }

/-- `StateManager.get_group`: return the group's state, lazily inserting a
fresh `GroupState` when the group has not been seen. -/
def get_group (s : Store) (gid : String) : GroupState × Store :=
  match s gid with
  | some g => (g, s)
  | none => ({ gid := gid }, Store.put s gid { gid := gid })

/-- The configuration keys `on_group_msg` reads. A missing or falsy value is
`0` (for thresholds), `[]` (for lists) or `false`. -/
structure Conf where
  group_whitelist : List String := []
  user_blacklist : List String := []
  wake_cd : ℚ := 0
  wake_forbidden_words : List String := []
  block_builtin : Bool := false
  pend_cd : ℚ := 0
  empty_mention_pt : String := ""
  mention_wake : List String := []
  wake_extend : ℚ := 0
  relevant_wake : ℚ := 0
  ask_wake : ℚ := 0
  bored_wake : ℚ := 0
  prob_wake : ℚ := 0
  shutup : ℚ := 0
  insult : ℚ := 0
  ai : ℚ := 0
  sult_multiple : ℚ := 0
  silence_multiple : ℚ := 0

/-- Modelled from the spec: the `Sentiment` scorer imported from
`sentiment.py`, a file not present in the sources. Per the spec it exposes
four pure scoring functions of a message string — `ask`, `bored`, `shut`,
`insult` — treated as black boxes by the evaluator. -/
structure Sentiment where
  ask : String → ℚ
  bored : String → ℚ
  shut : String → ℚ
  insult : String → ℚ

/-- One record of the persisted conversation history. -/
structure HRecord where
  role : String
  content : String
  deriving DecidableEq

/-- The pure filtering of `_get_history_msg`: keep the records of the given
role with nonempty content, then the last `count` of them. A `None` history
(no conversation, or a fetch error) is collapsed to `[]`; the caller only
tests truthiness, and both `None` and `[]` are falsy. -/
def get_history_msg (history : Option (List HRecord)) (role : String)
    (count : ℕ) : List String :=
  match history with
  | none => []
  | some h =>
      let contexts :=
        (h.filter (fun r => r.role == role && r.content != "")).map
          (fun r => r.content)
      if count ≠ 0 then contexts.drop (contexts.length - count) else contexts

/-- Python `int()` applied to a numeric value: truncation toward zero. -/
def int_of_rat (x : ℚ) : ℤ := if 0 ≤ x then ⌊x⌋ else ⌈x⌉

/-- Everything one invocation of `on_group_msg` consumes: configuration, the
sentiment scorer, ids, the event, the values the external collaborators
would return (history fetch, LLM call, `random.random()` draw), the clock
and the state store. -/
structure EvalInput where
  conf : Conf
  sent : Sentiment
  bid : String
  gid : String
  uid : String
  event : Event
  hist : Option (List HRecord) := none
  llm : Option String := none
  rand : ℚ := 1
  now : ℚ
  store : Store

/-- The observable outcome of one invocation: the updated store, the final
current event (text, wake flag, stopped flag), the canned reply sent (if
any), whether the call raised an uncaught exception, and whether the wake
block ran. -/
structure EvalResult where
  store : Store
  event : Event
  reply : Option String
  raised : Bool
  woke : Bool

/-- Lines 232-290 of `main.py`: the ordered wake-trigger cascade, evaluated
on the local variable `msg` (captured before the pending merge). The first
component is true when the topic-relevance branch runs its loop on a
nonempty history: the loop body is `Similarity.cosine(msg, bmsg, gid)` —
three arguments to a two-parameter classmethod — so the first iteration
raises `TypeError` before any score is computed, aborting the handler. The
second component is the final `wake` flag (false when the raise aborted). -/
def wake_cascade (conf : Conf) (sent : Sentiment) (rand now last_wake : ℚ)
    (atFlag : Bool) (msg : String) (bmsgs : List String) : Bool × Bool :=
  let wake0 := atFlag
  -- 提及唤醒
  let wake1 := wake0 ||
    (!conf.mention_wake.isEmpty &&
      (conf.mention_wake.filter (fun n => n != "")).any
        (fun n => n != "" && strIn n msg))
  -- 唤醒延长
  let wake2 := wake1 ||
    (decide (conf.wake_extend ≠ 0) &&
      decide (now - last_wake ≤ (int_of_rat conf.wake_extend : ℚ)))
  -- 话题相关性唤醒 (raises TypeError on the first history message)
  if !wake2 && decide (conf.relevant_wake ≠ 0) && !bmsgs.isEmpty then
    (true, false)
  else
    -- 答疑唤醒
    let wake4 := wake2 ||
      (decide (conf.ask_wake ≠ 0) && decide (sent.ask msg > conf.ask_wake))
    -- 无聊唤醒
    let wake5 := wake4 ||
      (decide (conf.bored_wake ≠ 0) && decide (sent.bored msg > conf.bored_wake))
    -- 概率唤醒
    let wake6 := wake5 ||
      (decide (conf.prob_wake ≠ 0) && decide (rand < conf.prob_wake))
    (false, wake6)

/-- Lines 209-216 of `main.py`: append the current event to the member's
pending buffer; when more than one event is now buffered, stop all the
older ones and replace the newest (current) event's text by the space-joined
reversal of all the buffered texts. The buffer holds the very objects, so
it ends with the stopped older events followed by the rewritten current
event. -/
def pend_merge (m : MemberState) (event : Event) : Event × MemberState :=
  let pend1 := m.pend ++ [event]
  if pend1.length > 1 then
    let msgs := pend1.dropLast.map (fun et => et.message_str)
    let ev := { event with
      message_str := String.intercalate " " (msgs ++ [event.message_str]).reverse }
    (ev, { m with pend := pend1.dropLast.map Event.stop ++ [ev] })
  else (event, { m with pend := pend1 })

/-- Lines 303-334 of `main.py`: the three post-cascade mute mechanisms
(group shutup, member insult mute without `stop_event`, member AI mute with
`stop_event`), all reading the pre-merge local `msg`. `store3` already
contains `g2` at `i.gid`, and `g2` maps `i.uid` to `m2`. -/
def post_checks (i : EvalInput) (store3 : Store) (g2 : GroupState)
    (m2 : MemberState) (event2 : Event) (wake : Bool) : EvalResult :=
  let msg := i.event.message_str
  -- 闭嘴机制 (对当前群聊闭嘴)
  if i.conf.shutup ≠ 0 ∧ i.sent.shut msg > i.conf.shutup then
    ⟨store3.put i.gid
        { g2 with shutup_until := i.now + i.sent.shut msg * i.conf.sult_multiple },
      event2.stop, none, false, wake⟩
  -- 辱骂沉默机制 (本轮对话不沉默，方便回怼: no stop_event here)
  else if i.conf.insult ≠ 0 ∧ i.sent.insult msg > i.conf.insult then
    ⟨store3.put i.gid (g2.setMember i.uid
        { m2 with silence_until := i.now + i.sent.insult msg * i.conf.sult_multiple }),
      event2, none, false, wake⟩
  -- AI沉默机制 (stops the current event too)
  else if i.conf.ai ≠ 0 ∧ i.sent.insult msg > i.conf.ai then
    ⟨store3.put i.gid (g2.setMember i.uid
        { m2 with silence_until := i.now + i.sent.insult msg * i.conf.silence_multiple }),
      event2.stop, none, false, wake⟩
  else ⟨store3, event2, none, false, wake⟩

/-- Lines 232-301 of `main.py`: the wake cascade on the pre-merge `msg`,
the abort when its topic-relevance branch raises, and the wake block
(`pend_cd`, `last_wake`, at-flag), then the post checks. -/
def cascade_part (i : EvalInput) (store2 : Store) (g1 : GroupState)
    (event1 : Event) (m1 : MemberState) : EvalResult :=
  let msg := i.event.message_str
  let c := wake_cascade i.conf i.sent i.rand i.now m1.last_wake
      event1.is_at_or_wake_command msg (get_history_msg i.hist "assistant" 5)
  if c.1 then ⟨store2, event1, none, true, false⟩
  else
    -- 触发唤醒: 挂起 + 记录唤醒时间 + 置位
    let m2 := if c.2 then
        { m1 with pend_cd := i.now + i.conf.pend_cd, last_wake := i.now }
      else m1
    let event2 := if c.2 then
        { event1 with is_at_or_wake_command := true } else event1
    let g2 := g1.setMember i.uid m2
    post_checks i (store2.put i.gid g2) g2 m2 event2 c.2

/-- Lines 207-230 of `main.py`: the pending merge and the empty-mention
canned reply (`if text := ...`: an LLM failure or empty reply is falsy and
falls through to the cascade). -/
def merge_part (i : EvalInput) (store1 : Store) (g : GroupState)
    (m : MemberState) : EvalResult :=
  let msg := i.event.message_str
  -- 消息缓存与合并
  let em := if i.now - m.last_wake < i.conf.pend_cd
    then pend_merge m i.event else (i.event, m)
  let g1 := g.setMember i.uid em.2
  let store2 := store1.put i.gid g1
  -- 空@回复
  if msg = "" ∧ i.event.single_at = some i.bid ∧ i.llm.getD "" ≠ "" then
    ⟨store2, em.1.stop, some (i.llm.getD ""), false, false⟩
  else cascade_part i store2 g1 em.1 em.2

/-- Lines 177-334 of `main.py`: the body of `on_group_msg` after group and
member resolution — the read-only gating checks, then merge, cascade and
post checks. `store1` already contains `g` at `i.gid`, and `g` has a
member entry for `i.uid`, namely `m`. -/
def on_group_msg_member (i : EvalInput) (store1 : Store) (g : GroupState)
    (m : MemberState) : EvalResult :=
  -- 唤醒CD检查
  if i.now - m.last_wake < i.conf.wake_cd then
    ⟨store1, i.event.stop, none, false, false⟩
  -- 唤醒违禁词检查
  else if i.conf.wake_forbidden_words.any (fun w => strIn w i.event.message_str) then
    ⟨store1, i.event.stop, none, false, false⟩
  -- 屏蔽内置指令
  else if i.conf.block_builtin && BUILT_CMDS.any (fun c => strIn c i.event.message_str) then
    ⟨store1, i.event.stop, none, false, false⟩
  -- 闭嘴检查 (`_is_shutup`)
  else if g.shutup_until > i.now then
    ⟨store1, i.event.stop, none, false, false⟩
  -- 沉默检查 (`_is_insult`)
  else if (match g.members i.uid with
           | some mm => mm.silence_until
           | none => 0) > i.now then
    ⟨store1, i.event.stop, none, false, false⟩
  else merge_part i store1 g m

/-- `WakeProPlugin.on_group_msg` (lines 150-334 of `main.py`). -/
def on_group_msg (i : EvalInput) : EvalResult :=
  let gs := get_group i.store i.gid
  -- 群聊白名单 / 用户黑名单
  if i.uid = i.bid then ⟨gs.2, i.event, none, false, false⟩
  else if i.gid ≠ "" ∧ i.conf.group_whitelist ≠ [] ∧
      i.gid ∉ i.conf.group_whitelist then
    ⟨gs.2, i.event, none, false, false⟩
  else if i.uid ∈ i.conf.user_blacklist then
    ⟨gs.2, i.event.stop, none, false, false⟩
  else
    -- 更新成员状态 (lazily create the member entry)
    match gs.1.members i.uid with
    | some m => on_group_msg_member i gs.2 gs.1 m
    | none =>
        let m : MemberState := { uid := i.uid }
        let g := gs.1.setMember i.uid m
        on_group_msg_member i (gs.2.put i.gid g) g m

end WakePro

namespace Similarity

/-- Concrete segmenter used by witnesses: segments nothing. -/
def segNone : String → List String := fun _ => []

/-- Concrete empty topic-cache state used by witnesses. -/
noncomputable def stEmpty : SimState := ⟨[], fun _ => 0⟩

end Similarity

namespace WakePro

/-- Look up a member in a result's store, for stating postconditions. -/
def EvalResult.memberOf (r : EvalResult) (gid uid : String) : Option MemberState :=
  (r.store gid).bind (fun g => g.members uid)

/-- A sentiment scorer that scores everything 0 (concrete witness inputs). -/
def sent0 : Sentiment := ⟨fun _ => 0, fun _ => 0, fun _ => 0, fun _ => 0⟩

/-- Scorer whose ask score is always 1 (concrete input for the
topic-relevance claim: the ask trigger would fire if the cascade survived). -/
def c1sent : Sentiment := ⟨fun _ => 1, fun _ => 0, fun _ => 0, fun _ => 0⟩

/-- Concrete input: `relevant_wake` configured, one assistant history
message, ask score above its configured threshold. -/
def c1in : EvalInput :=
  { conf := { relevant_wake := 1/2, ask_wake := 1/2 }
    sent := c1sent
    bid := "bot", gid := "g1", uid := "u1"
    event := { message_str := "hello", is_at_or_wake_command := false }
    hist := some [{ role := "assistant", content := "hi" }]
    now := 100
    store := fun _ => none }

/-- A buffered event with text `"a"`. -/
def evA : Event := { message_str := "a", is_at_or_wake_command := false }

/-- Member inside the pending window with one buffered event. -/
def c2member : MemberState := { uid := "u1", last_wake := 100, pend := [evA] }

/-- Group holding `c2member`. -/
def c2group : GroupState :=
  { gid := "g1", members := fun u => if u = "u1" then some c2member else none }

/-- Concrete input for the pending-merge claim: current text `"b"`, one
buffered older event `"a"`, and a mention name `"a"` that occurs in the
merged text but not in the original text. -/
def c2in : EvalInput :=
  { conf := { pend_cd := 10, mention_wake := ["a"] }
    sent := sent0
    bid := "bot", gid := "g1", uid := "u1"
    event := { message_str := "b", is_at_or_wake_command := false }
    now := 100
    store := fun x => if x = "g1" then some c2group else none }

/-- Concrete input: blacklisted sender in a group the store has never seen. -/
def c3in : EvalInput :=
  { conf := { user_blacklist := ["u1"] }
    sent := sent0
    bid := "bot", gid := "g1", uid := "u1"
    event := { message_str := "hi", is_at_or_wake_command := false }
    now := 100
    store := fun _ => none }

/-- A fresh member entry. -/
def freshMember : MemberState := { uid := "u1" }

/-- Group already holding `freshMember`. -/
def g1group : GroupState :=
  { gid := "g1", members := fun u => if u = "u1" then some freshMember else none }

/-- A store already holding `g1group`. -/
def g1store : Store := fun x => if x = "g1" then some g1group else none

/-- Concrete input: blacklisted sender whose group and member entries both
already exist in the store. -/
def c3in2 : EvalInput :=
  { conf := { user_blacklist := ["u1"] }
    sent := sent0
    bid := "bot", gid := "g1", uid := "u1"
    event := { message_str := "hi", is_at_or_wake_command := false }
    now := 100
    store := g1store }

/-- Concrete input with every score-based threshold at zero and the
upstream at-or-wake flag set. -/
def c4in : EvalInput :=
  { conf := {}
    sent := sent0
    bid := "bot", gid := "g1", uid := "u1"
    event := { message_str := "hi", is_at_or_wake_command := true }
    now := 100
    store := fun _ => none }

/-- Scorer whose insult score is always 1. -/
def c7sent : Sentiment := ⟨fun _ => 0, fun _ => 0, fun _ => 0, fun _ => 1⟩

/-- Concrete input for the insult-mute claim: `insult` threshold 1/2,
`sult_multiple` 3, insult score 1. -/
def c7in : EvalInput :=
  { conf := { insult := 1/2, sult_multiple := 3 }
    sent := c7sent
    bid := "bot", gid := "g1", uid := "u1"
    event := { message_str := "x", is_at_or_wake_command := false }
    now := 100
    store := g1store }

/-- Scorer whose insult score is 2 on `"aa"` and 1 elsewhere. -/
def c9sent : Sentiment :=
  ⟨fun _ => 0, fun _ => 0, fun _ => 0, fun m => if m = "aa" then 2 else 1⟩

/-- Concrete input for the mute-duration monotonicity claim. -/
def c9in : EvalInput :=
  { conf := { insult := 1/2, sult_multiple := 3 }
    sent := c9sent
    bid := "bot", gid := "g1", uid := "u1"
    event := { message_str := "aa", is_at_or_wake_command := false }
    now := 100
    store := g1store }

/-- Member entry with a nonzero stored `pend_cd`. -/
def c10member : MemberState := { uid := "u1", pend_cd := 7 }

/-- Group holding `c10member`. -/
def c10group : GroupState :=
  { gid := "g1", members := fun u => if u = "u1" then some c10member else none }

/-- Concrete input for the `pend_cd` noninterference claim. -/
def c10in : EvalInput :=
  { conf := {}
    sent := sent0
    bid := "bot", gid := "g1", uid := "u1"
    event := { message_str := "hi", is_at_or_wake_command := true }
    now := 100
    store := fun x => if x = "g1" then some c10group else none }

end WakePro

-- ===================== theorems =====================

namespace Similarity

theorem dequeAppend_length_le (q : List String) (w : String) :
    (dequeAppend q w).length ≤ 20 := by
  simp only [dequeAppend, List.length_drop, List.length_append, List.length_singleton]
  omega

theorem cacheAppendAll_length_le (words : List String) (q : List String)
    (hq : q.length ≤ 20) : (cacheAppendAll q words).length ≤ 20 := by
  induction words generalizing q with
  | nil => exact hq
  | cons w rest ih =>
      simp only [cacheAppendAll, List.foldl_cons] at *
      by_cases hw : qualifies w
      · simpa [hw] using ih _ (dequeAppend_length_le q w)
      · simpa [hw] using ih _ hq

theorem updateWeightsFold_not_mem (W : String → ℝ) (l : List (String × ℕ))
    (w : String) (h : w ∉ l.map Prod.fst) : updateWeightsFold W l w = W w := by
  induction l generalizing W with
  | nil => rfl
  | cons p rest ih =>
      obtain ⟨x, c⟩ := p
      simp only [List.map_cons, List.mem_cons, not_or] at h
      rw [updateWeightsFold, ih _ h.2]
      simp [h.1]

theorem updateWeightsFold_mem (W : String → ℝ) (l : List (String × ℕ))
    (hnd : (l.map Prod.fst).Nodup) (w : String) (c : ℕ) (h : (w, c) ∈ l) :
    updateWeightsFold W l w =
      max (W w * 0.95) ((c : ℝ) * (1 + Real.log (w.length : ℝ))) := by
  induction l generalizing W with
  | nil => cases h
  | cons p rest ih =>
      obtain ⟨x, cx⟩ := p
      simp only [List.map_cons, List.nodup_cons] at hnd
      rcases List.mem_cons.mp h with heq | hmem
      · obtain ⟨rfl, rfl⟩ := Prod.mk.injEq .. |>.mp heq
        rw [updateWeightsFold,
          updateWeightsFold_not_mem _ _ _ (by simpa using hnd.1)]
        simp
      · have hw : w ≠ x := by
          rintro rfl
          exact hnd.1 (List.mem_map.mpr ⟨(w, c), hmem, rfl⟩)
        rw [updateWeightsFold, ih _ hnd.2 hmem]
        simp [hw]

end Similarity

namespace Similarity

/-- C5: after every observe/append batch, every token currently held in the
topic FIFO gets the weight `max(old_weight * 0.95, freq * (1 + ln(len)))`,
where `freq` counts its occurrences in the current FIFO contents and the
old weight defaults to 0 for unseen tokens (the weight table is a total
map defaulting to 0). -/
theorem claim_c5 (st : SimState) (words : List String) (w : String)
    (h : w ∈ (update_topic_cache st words).cache) :
    (update_topic_cache st words).weights w =
      max (st.weights w * 0.95)
        (((update_topic_cache st words).cache.count w : ℝ) *
          (1 + Real.log (w.length : ℝ))) := by
  have hc : (update_topic_cache st words).cache = cacheAppendAll st.cache words := rfl
  rw [hc] at h ⊢
  have hmem : (w, (cacheAppendAll st.cache words).count w) ∈
      freqList (cacheAppendAll st.cache words) :=
    List.mem_map.mpr ⟨w, List.mem_dedup.mpr h, rfl⟩
  have hnd : ((freqList (cacheAppendAll st.cache words)).map Prod.fst).Nodup := by
    have he : (freqList (cacheAppendAll st.cache words)).map Prod.fst =
        (cacheAppendAll st.cache words).dedup := by
      simp [freqList, List.map_map, Function.comp_def]
    rw [he]
    exact (cacheAppendAll st.cache words).nodup_dedup
  exact updateWeightsFold_mem st.weights _ hnd _ _ hmem

theorem claim_c5_witness :
    "苹果" ∈ (update_topic_cache stEmpty ["苹果"]).cache ∧
    (update_topic_cache stEmpty ["苹果"]).weights "苹果" =
      max (stEmpty.weights "苹果" * 0.95)
        (((update_topic_cache stEmpty ["苹果"]).cache.count "苹果" : ℝ) *
          (1 + Real.log (("苹果" : String).length : ℝ))) :=
  ⟨by decide, claim_c5 stEmpty ["苹果"] "苹果" (by decide)⟩

/-- C8: the topic FIFO never holds more than 20 tokens (an invariant every
observe/update call preserves), and appending one qualifying token to a
full FIFO evicts the oldest entry, keeping FIFO order. -/
theorem claim_c8 :
    (∀ (st : SimState) (words : List String), st.cache.length ≤ 20 →
        (update_topic_cache st words).cache.length ≤ 20) ∧
    (∀ (q : List String) (w : String), q.length = 20 → qualifies w = true →
        cacheAppendAll q [w] = q.tail ++ [w]) := by
  constructor
  · intro st words h
    exact cacheAppendAll_length_le words st.cache h
  · intro q w hq hw
    simp only [cacheAppendAll, List.foldl_cons, List.foldl_nil, hw, if_true]
    have h2 : (q ++ [w]).length - 20 = 1 := by simp [hq]
    show List.drop ((q ++ [w]).length - 20) (q ++ [w]) = q.tail ++ [w]
    rw [h2, List.drop_append_of_le_length (by omega), List.drop_one]

theorem claim_c8_witness :
    (List.replicate 20 "苹果").length = 20 ∧ qualifies "香蕉" = true ∧
    cacheAppendAll (List.replicate 20 "苹果") ["香蕉"] =
      (List.replicate 20 "苹果").tail ++ ["香蕉"] ∧
    stEmpty.cache.length ≤ 20 ∧
    (update_topic_cache stEmpty ["香蕉"]).cache.length ≤ 20 :=
  ⟨by decide, by decide, claim_c8.2 _ _ (by decide) (by decide), by decide,
    claim_c8.1 stEmpty ["香蕉"] (by decide)⟩

theorem tokens_empty (seg : String → List String) (st : SimState)
    (h : seg "" = []) : (tokens seg st "").1 = [] := by
  have hc : cleanStr "" = "" := rfl
  simp [tokens, extract_keywords, extract_keywords_words, hc, h, mergeWords]

theorem raw_score_empty (seg : String → List String) (st : SimState)
    (h : seg "" = []) : raw_score seg st "" "" = 0 := by
  have h1 := tokens_empty seg st h
  have h2 := tokens_empty seg (tokens seg st "").2 h
  simp [raw_score, h1, h2, enhancedDot, vecNorm]

/-- C6: `cosine` returns `1/(1 + e^(-8 (raw - 0.6)))`, a value strictly
inside `(0,1)`; on two empty strings the token vector is empty, the raw
cosine is 0 (the denominator is floored by the `1e-8` epsilon), and the
final score is `sigmoid(-4.8) = 1/(1 + e^4.8)`. -/
theorem claim_c6 (seg : String → List String) (st : SimState) (a b : String)
    (h : seg "" = []) :
    ((cosine seg st a b).1 =
        1 / (1 + Real.exp (-8 * (raw_score seg st a b - 0.6))) ∧
      0 < (cosine seg st a b).1 ∧ (cosine seg st a b).1 < 1) ∧
    ((tokens seg st "").1 = [] ∧ raw_score seg st "" "" = 0 ∧
      (cosine seg st "" "").1 = 1 / (1 + Real.exp 4.8)) := by
  have hform : ∀ (st' : SimState) (x y : String), (cosine seg st' x y).1 =
      1 / (1 + Real.exp (-8 * (raw_score seg st' x y - 0.6))) := fun _ _ _ => rfl
  have hpos : ∀ t : ℝ, 0 < 1 / (1 + Real.exp t) := fun t => by positivity
  have hlt : ∀ t : ℝ, 1 / (1 + Real.exp t) < 1 := fun t => by
    rw [div_lt_one (by positivity)]
    linarith [Real.exp_pos t]
  refine ⟨⟨hform st a b, ?_, ?_⟩, tokens_empty seg st h, raw_score_empty seg st h, ?_⟩
  · rw [hform st a b]; exact hpos _
  · rw [hform st a b]; exact hlt _
  · rw [hform st "" "", raw_score_empty seg st h]; norm_num

theorem claim_c6_witness :
    segNone "" = [] ∧
    (((cosine segNone stEmpty "x" "x").1 =
        1 / (1 + Real.exp (-8 * (raw_score segNone stEmpty "x" "x" - 0.6))) ∧
      0 < (cosine segNone stEmpty "x" "x").1 ∧
      (cosine segNone stEmpty "x" "x").1 < 1) ∧
    ((tokens segNone stEmpty "").1 = [] ∧
      raw_score segNone stEmpty "" "" = 0 ∧
      (cosine segNone stEmpty "" "").1 = 1 / (1 + Real.exp 4.8))) :=
  ⟨rfl, claim_c6 segNone stEmpty "x" "x" rfl⟩

end Similarity

namespace WakePro

open Similarity (strIn)

theorem pend_merge_pendcd (m : MemberState) (p : ℚ) (e : Event) :
    pend_merge { m with pend_cd := p } e =
      ((pend_merge m e).1, { (pend_merge m e).2 with pend_cd := p }) := by
  by_cases h : 0 < m.pend.length <;> simp [pend_merge, h]

theorem pend_merge_last_wake (m : MemberState) (e : Event) :
    (pend_merge m e).2.last_wake = m.last_wake := by
  by_cases h : 0 < m.pend.length <;> simp [pend_merge, h]

theorem pend_merge_flag (m : MemberState) (e : Event) :
    (pend_merge m e).1.is_at_or_wake_command = e.is_at_or_wake_command := by
  by_cases h : 0 < m.pend.length <;> simp [pend_merge, h]

theorem pend_merge_stopped (m : MemberState) (e : Event) :
    (pend_merge m e).1.stopped = e.stopped := by
  by_cases h : 0 < m.pend.length <;> simp [pend_merge, h]

theorem wake_cascade_no_raise (conf : Conf) (sent : Sentiment)
    (rand now lw : ℚ) (atFlag : Bool) (msg : String) (bmsgs : List String)
    (h : conf.relevant_wake = 0 ∨ bmsgs = []) :
    (wake_cascade conf sent rand now lw atFlag msg bmsgs).1 = false := by
  rcases h with h | h <;> simp [wake_cascade, h]

theorem wake_cascade_zeros (conf : Conf) (sent : Sentiment)
    (rand now lw : ℚ) (atFlag : Bool) (msg : String) (bmsgs : List String)
    (h1 : conf.wake_extend = 0) (h2 : conf.relevant_wake = 0)
    (h3 : conf.ask_wake = 0) (h4 : conf.bored_wake = 0)
    (h5 : conf.prob_wake = 0) :
    wake_cascade conf sent rand now lw atFlag msg bmsgs =
      (false, atFlag || (!conf.mention_wake.isEmpty &&
        (conf.mention_wake.filter (fun n => n != "")).any
          (fun n => n != "" && strIn n msg))) := by
  simp [wake_cascade, h1, h2, h3, h4, h5]

theorem post_checks_woke (i : EvalInput) (s3 : Store) (g2 : GroupState)
    (m2 : MemberState) (e2 : Event) (w : Bool) :
    (post_checks i s3 g2 m2 e2 w).woke = w := by
  simp only [post_checks]
  split_ifs <;> rfl

theorem post_checks_raised (i : EvalInput) (s3 : Store) (g2 : GroupState)
    (m2 : MemberState) (e2 : Event) (w : Bool) :
    (post_checks i s3 g2 m2 e2 w).raised = false := by
  simp only [post_checks]
  split_ifs <;> rfl

theorem post_checks_reply (i : EvalInput) (s3 : Store) (g2 : GroupState)
    (m2 : MemberState) (e2 : Event) (w : Bool) :
    (post_checks i s3 g2 m2 e2 w).reply = none := by
  simp only [post_checks]
  split_ifs <;> rfl

theorem cascade_part_woke_imp (i : EvalInput) (s2 : Store) (g1 : GroupState)
    (e1 : Event) (m1 : MemberState)
    (h : (cascade_part i s2 g1 e1 m1).woke = true) :
    (wake_cascade i.conf i.sent i.rand i.now m1.last_wake
      e1.is_at_or_wake_command i.event.message_str
      (get_history_msg i.hist "assistant" 5)).2 = true := by
  simp only [cascade_part] at h
  split_ifs at h <;> simp_all [post_checks_woke]

theorem merge_part_woke_imp (i : EvalInput) (s1 : Store) (g : GroupState)
    (m : MemberState) (h : (merge_part i s1 g m).woke = true) :
    (wake_cascade i.conf i.sent i.rand i.now m.last_wake
      i.event.is_at_or_wake_command i.event.message_str
      (get_history_msg i.hist "assistant" 5)).2 = true := by
  simp only [merge_part] at h
  split_ifs at h
  all_goals
    first
    | exact cascade_part_woke_imp _ _ _ _ _ h
    | (have h2 := cascade_part_woke_imp _ _ _ _ _ h
       rwa [pend_merge_last_wake, pend_merge_flag] at h2)
    | (exfalso; revert h; simp)

theorem member_woke_imp (i : EvalInput) (store1 : Store) (g : GroupState)
    (m : MemberState) (h : (on_group_msg_member i store1 g m).woke = true) :
    (wake_cascade i.conf i.sent i.rand i.now m.last_wake
      i.event.is_at_or_wake_command i.event.message_str
      (get_history_msg i.hist "assistant" 5)).2 = true := by
  simp only [on_group_msg_member] at h
  split_ifs at h
  all_goals first
    | exact merge_part_woke_imp i store1 g m h
    | simp at h

theorem outer_woke (i : EvalInput) (h : (on_group_msg i).woke = true) :
    ∃ s g m, (on_group_msg_member i s g m).woke = true := by
  simp only [on_group_msg] at h
  split_ifs at h
  all_goals try simp at h
  all_goals
    rcases hm : (get_group i.store i.gid).1.members i.uid with _ | m <;>
      rw [hm] at h <;> exact ⟨_, _, _, h⟩

/-- C4: with `wake_extend`, `relevant_wake`, `ask_wake`, `bored_wake` and
`prob_wake` all disabled (zero), a message can wake the agent only through
the caller-supplied at-or-wake flag or through a configured nonempty
mention string occurring in its text. -/
theorem claim_c4 (i : EvalInput)
    (h1 : i.conf.wake_extend = 0) (h2 : i.conf.relevant_wake = 0)
    (h3 : i.conf.ask_wake = 0) (h4 : i.conf.bored_wake = 0)
    (h5 : i.conf.prob_wake = 0) :
    (on_group_msg i).woke = true →
      i.event.is_at_or_wake_command = true ∨
        ∃ n, n ∈ i.conf.mention_wake ∧ n ≠ "" ∧
          strIn n i.event.message_str = true := by
  intro h
  obtain ⟨s, g, m, hw⟩ := outer_woke i h
  have hc := member_woke_imp i s g m hw
  rw [wake_cascade_zeros _ _ _ _ _ _ _ _ h1 h2 h3 h4 h5] at hc
  simp only [Bool.or_eq_true, Bool.and_eq_true, List.any_eq_true,
    List.mem_filter, bne_iff_ne, ne_eq] at hc
  rcases hc with hc | ⟨-, n, ⟨hn1, -⟩, hn2, hn3⟩
  · exact Or.inl hc
  · exact Or.inr ⟨n, hn1, hn2, hn3⟩

theorem claim_c4_witness :
    c4in.conf.wake_extend = 0 ∧ c4in.conf.relevant_wake = 0 ∧
    c4in.conf.ask_wake = 0 ∧ c4in.conf.bored_wake = 0 ∧
    c4in.conf.prob_wake = 0 ∧ (on_group_msg c4in).woke = true ∧
    (c4in.event.is_at_or_wake_command = true ∨
      ∃ n, n ∈ c4in.conf.mention_wake ∧ n ≠ "" ∧
        strIn n c4in.event.message_str = true) := by
  have hwoke : (on_group_msg c4in).woke = true := by
    norm_num [on_group_msg, on_group_msg_member, merge_part, cascade_part,
      post_checks, get_group, c4in, sent0, wake_cascade, pend_merge,
      get_history_msg, int_of_rat, Store.put, GroupState.setMember, Event.stop]
    try decide
  exact ⟨rfl, rfl, rfl, rfl, rfl, hwoke,
    claim_c4 c4in rfl rfl rfl rfl rfl hwoke⟩

/-- C1: with `relevant_wake` configured and a nonempty assistant history,
the topic-relevance branch raises `TypeError` (`Similarity.cosine` is
called with three arguments but accepts two), so the handler aborts: no
wake decision is made even though the later ask trigger would have fired. -/
theorem claim_c1_relevant_raises :
    (on_group_msg c1in).raised = true ∧ (on_group_msg c1in).woke = false ∧
    (on_group_msg c1in).event.stopped = false ∧
    c1in.conf.relevant_wake ≠ 0 ∧
    get_history_msg c1in.hist "assistant" 5 = ["hi"] ∧
    c1in.sent.ask c1in.event.message_str > c1in.conf.ask_wake := by
  refine ⟨?_, ?_, ?_, by norm_num [c1in], by decide, by norm_num [c1in, c1sent]⟩ <;>
    · norm_num [on_group_msg, on_group_msg_member, merge_part, cascade_part,
        post_checks, get_group, c1in, c1sent, wake_cascade, pend_merge,
        get_history_msg, int_of_rat, Store.put, GroupState.setMember, Event.stop]
      try decide

end WakePro

namespace WakePro

open Similarity (strIn)

theorem event_flag_stopped (c : Bool) (e : Event) :
    (if c = true then { e with is_at_or_wake_command := true } else e).stopped
      = e.stopped := by
  cases c <;> rfl

theorem cascade_part_insult (i : EvalInput) (s2 : Store) (g1 : GroupState)
    (e1 : Event) (m1 : MemberState)
    (hrel : i.conf.relevant_wake = 0 ∨ get_history_msg i.hist "assistant" 5 = [])
    (hshut : ¬(i.conf.shutup ≠ 0 ∧ i.sent.shut i.event.message_str > i.conf.shutup))
    (hins : i.conf.insult ≠ 0)
    (hth : i.sent.insult i.event.message_str > i.conf.insult) :
    ((cascade_part i s2 g1 e1 m1).memberOf i.gid i.uid).map
        (fun mm => mm.silence_until) =
      some (i.now + i.sent.insult i.event.message_str * i.conf.sult_multiple) ∧
    (cascade_part i s2 g1 e1 m1).event.stopped = e1.stopped ∧
    (cascade_part i s2 g1 e1 m1).raised = false := by
  have hnr := wake_cascade_no_raise i.conf i.sent i.rand i.now m1.last_wake
    e1.is_at_or_wake_command i.event.message_str
    (get_history_msg i.hist "assistant" 5) hrel
  simp only [cascade_part, hnr, Bool.false_eq_true, if_false]
  simp only [post_checks]
  rw [if_neg hshut, if_pos ⟨hins, hth⟩]
  refine ⟨?_, event_flag_stopped _ _, rfl⟩
  simp [EvalResult.memberOf, Store.put, GroupState.setMember]

theorem merge_part_insult (i : EvalInput) (s1 : Store) (g : GroupState)
    (m : MemberState)
    (hat : ¬(i.event.message_str = "" ∧ i.event.single_at = some i.bid ∧
      i.llm.getD "" ≠ ""))
    (hrel : i.conf.relevant_wake = 0 ∨ get_history_msg i.hist "assistant" 5 = [])
    (hshut : ¬(i.conf.shutup ≠ 0 ∧ i.sent.shut i.event.message_str > i.conf.shutup))
    (hins : i.conf.insult ≠ 0)
    (hth : i.sent.insult i.event.message_str > i.conf.insult) :
    ((merge_part i s1 g m).memberOf i.gid i.uid).map
        (fun mm => mm.silence_until) =
      some (i.now + i.sent.insult i.event.message_str * i.conf.sult_multiple) ∧
    (merge_part i s1 g m).event.stopped = i.event.stopped ∧
    (merge_part i s1 g m).raised = false := by
  simp only [merge_part, if_neg hat]
  by_cases hp : i.now - m.last_wake < i.conf.pend_cd
  · simp only [if_pos hp]
    have h3 := cascade_part_insult i
      (s1.put i.gid (g.setMember i.uid (pend_merge m i.event).2))
      (g.setMember i.uid (pend_merge m i.event).2)
      (pend_merge m i.event).1 (pend_merge m i.event).2 hrel hshut hins hth
    exact ⟨h3.1, by rw [h3.2.1, pend_merge_stopped], h3.2.2⟩
  · simp only [if_neg hp]
    exact cascade_part_insult i (s1.put i.gid (g.setMember i.uid m))
      (g.setMember i.uid m) i.event m hrel hshut hins hth

theorem member_insult (i : EvalInput) (store1 : Store) (g : GroupState)
    (m : MemberState)
    (hcd : ¬(i.now - m.last_wake < i.conf.wake_cd))
    (hfw : ¬(i.conf.wake_forbidden_words.any
      (fun w => strIn w i.event.message_str) = true))
    (hbc : ¬((i.conf.block_builtin && BUILT_CMDS.any
      (fun c => strIn c i.event.message_str)) = true))
    (hsh : ¬(g.shutup_until > i.now))
    (hsi : ¬((match g.members i.uid with
              | some mm => mm.silence_until
              | none => 0) > i.now))
    (hat : ¬(i.event.message_str = "" ∧ i.event.single_at = some i.bid ∧
      i.llm.getD "" ≠ ""))
    (hrel : i.conf.relevant_wake = 0 ∨ get_history_msg i.hist "assistant" 5 = [])
    (hshut : ¬(i.conf.shutup ≠ 0 ∧ i.sent.shut i.event.message_str > i.conf.shutup))
    (hins : i.conf.insult ≠ 0)
    (hth : i.sent.insult i.event.message_str > i.conf.insult) :
    ((on_group_msg_member i store1 g m).memberOf i.gid i.uid).map
        (fun mm => mm.silence_until) =
      some (i.now + i.sent.insult i.event.message_str * i.conf.sult_multiple) ∧
    (on_group_msg_member i store1 g m).event.stopped = i.event.stopped ∧
    (on_group_msg_member i store1 g m).raised = false := by
  simp only [on_group_msg_member, if_neg hcd, if_neg hfw, if_neg hbc,
    if_neg hsh, if_neg hsi]
  exact merge_part_insult i store1 g m hat hrel hshut hins hth

theorem on_group_msg_resolve (i : EvalInput) (g : GroupState) (m : MemberState)
    (hg : i.store i.gid = some g) (hm : g.members i.uid = some m)
    (hbid : ¬(i.uid = i.bid))
    (hwl : ¬(i.gid ≠ "" ∧ i.conf.group_whitelist ≠ [] ∧
      i.gid ∉ i.conf.group_whitelist))
    (hbl : i.uid ∉ i.conf.user_blacklist) :
    on_group_msg i = on_group_msg_member i i.store g m := by
  simp only [on_group_msg, get_group, hg, if_neg hbid, if_neg hwl,
    if_neg hbl, hm]

end WakePro

namespace WakePro

open Similarity (strIn)

theorem on_group_msg_insult (i : EvalInput) (g : GroupState) (m : MemberState)
    (hg : i.store i.gid = some g) (hm : g.members i.uid = some m)
    (hbid : ¬(i.uid = i.bid))
    (hwl : ¬(i.gid ≠ "" ∧ i.conf.group_whitelist ≠ [] ∧
      i.gid ∉ i.conf.group_whitelist))
    (hbl : i.uid ∉ i.conf.user_blacklist)
    (hcd : ¬(i.now - m.last_wake < i.conf.wake_cd))
    (hfw : ¬(i.conf.wake_forbidden_words.any
      (fun w => strIn w i.event.message_str) = true))
    (hbc : ¬((i.conf.block_builtin && BUILT_CMDS.any
      (fun c => strIn c i.event.message_str)) = true))
    (hsh : ¬(g.shutup_until > i.now))
    (hsi : ¬(m.silence_until > i.now))
    (hat : ¬(i.event.message_str = "" ∧ i.event.single_at = some i.bid ∧
      i.llm.getD "" ≠ ""))
    (hrel : i.conf.relevant_wake = 0 ∨ get_history_msg i.hist "assistant" 5 = [])
    (hshut : ¬(i.conf.shutup ≠ 0 ∧ i.sent.shut i.event.message_str > i.conf.shutup))
    (hins : i.conf.insult ≠ 0)
    (hth : i.sent.insult i.event.message_str > i.conf.insult) :
    ((on_group_msg i).memberOf i.gid i.uid).map (fun mm => mm.silence_until) =
      some (i.now + i.sent.insult i.event.message_str * i.conf.sult_multiple) ∧
    (on_group_msg i).event.stopped = i.event.stopped ∧
    (on_group_msg i).raised = false := by
  rw [on_group_msg_resolve i g m hg hm hbid hwl hbl]
  refine member_insult i i.store g m hcd hfw hbc hsh ?_ hat hrel hshut hins hth
  rw [hm]
  exact hsi

/-- C7: when the message passes the gating checks and the group-shutup
trigger does not fire, a configured `insult` threshold exceeded by the
insult score sets the member's `silence_until` to
`now + insult_score * sult_multiple` while leaving the current event
unstopped (the turn is not suppressed, so the agent may answer once). -/
theorem claim_c7 (i : EvalInput) (g : GroupState) (m : MemberState)
    (hg : i.store i.gid = some g) (hm : g.members i.uid = some m)
    (hbid : ¬(i.uid = i.bid))
    (hwl : ¬(i.gid ≠ "" ∧ i.conf.group_whitelist ≠ [] ∧
      i.gid ∉ i.conf.group_whitelist))
    (hbl : i.uid ∉ i.conf.user_blacklist)
    (hcd : ¬(i.now - m.last_wake < i.conf.wake_cd))
    (hfw : ¬(i.conf.wake_forbidden_words.any
      (fun w => strIn w i.event.message_str) = true))
    (hbc : ¬((i.conf.block_builtin && BUILT_CMDS.any
      (fun c => strIn c i.event.message_str)) = true))
    (hsh : ¬(g.shutup_until > i.now))
    (hsi : ¬(m.silence_until > i.now))
    (hat : ¬(i.event.message_str = "" ∧ i.event.single_at = some i.bid ∧
      i.llm.getD "" ≠ ""))
    (hrel : i.conf.relevant_wake = 0 ∨ get_history_msg i.hist "assistant" 5 = [])
    (hshut : ¬(i.conf.shutup ≠ 0 ∧ i.sent.shut i.event.message_str > i.conf.shutup))
    (hins : i.conf.insult ≠ 0)
    (hth : i.sent.insult i.event.message_str > i.conf.insult) :
    ((on_group_msg i).memberOf i.gid i.uid).map (fun mm => mm.silence_until) =
      some (i.now + i.sent.insult i.event.message_str * i.conf.sult_multiple) ∧
    (on_group_msg i).event.stopped = i.event.stopped ∧
    (on_group_msg i).raised = false :=
  on_group_msg_insult i g m hg hm hbid hwl hbl hcd hfw hbc hsh hsi hat hrel
    hshut hins hth

theorem claim_c7_witness :
    c7in.conf.insult ≠ 0 ∧
    c7in.sent.insult c7in.event.message_str > c7in.conf.insult ∧
    ((on_group_msg c7in).memberOf c7in.gid c7in.uid).map
        (fun mm => mm.silence_until) =
      some (c7in.now + c7in.sent.insult c7in.event.message_str *
        c7in.conf.sult_multiple) ∧
    (on_group_msg c7in).event.stopped = c7in.event.stopped ∧
    (on_group_msg c7in).raised = false := by
  have h := claim_c7 c7in g1group freshMember rfl rfl (by decide) (by decide)
    (by decide) (by norm_num [c7in, freshMember]) (by decide) (by decide)
    (by norm_num [c7in, g1group]) (by norm_num [c7in, freshMember])
    (by decide) (Or.inl rfl) (by norm_num [c7in]) (by norm_num [c7in])
    (by norm_num [c7in, c7sent])
  exact ⟨by norm_num [c7in], by norm_num [c7in, c7sent], h⟩

theorem map_silence_sub (r : EvalResult) (gid uid : String) (now v : ℚ)
    (h : (r.memberOf gid uid).map (fun mm => mm.silence_until) = some (now + v)) :
    (r.memberOf gid uid).map (fun mm => mm.silence_until - now) = some v := by
  rcases ho : r.memberOf gid uid with _ | mm
  · rw [ho] at h
    simp at h
  · rw [ho] at h
    have hs : mm.silence_until = now + v := by simpa using h
    simp [hs]

/-- C9: for a fixed `now` and nonnegative `sult_multiple`, the insult-mute
duration `silence_until - now` equals `insult_score * sult_multiple`, and
a message with a strictly larger insult score yields a duration at least
as large. -/
theorem claim_c9 (i : EvalInput) (g : GroupState) (m : MemberState)
    (a b : String)
    (hg : i.store i.gid = some g) (hm : g.members i.uid = some m)
    (hbid : ¬(i.uid = i.bid))
    (hwl : ¬(i.gid ≠ "" ∧ i.conf.group_whitelist ≠ [] ∧
      i.gid ∉ i.conf.group_whitelist))
    (hbl : i.uid ∉ i.conf.user_blacklist)
    (hcd : ¬(i.now - m.last_wake < i.conf.wake_cd))
    (hsh : ¬(g.shutup_until > i.now))
    (hsi : ¬(m.silence_until > i.now))
    (hfwa : ¬(i.conf.wake_forbidden_words.any (fun w => strIn w a) = true))
    (hfwb : ¬(i.conf.wake_forbidden_words.any (fun w => strIn w b) = true))
    (hbca : ¬((i.conf.block_builtin && BUILT_CMDS.any
      (fun c => strIn c a)) = true))
    (hbcb : ¬((i.conf.block_builtin && BUILT_CMDS.any
      (fun c => strIn c b)) = true))
    (hata : ¬(a = "" ∧ i.event.single_at = some i.bid ∧ i.llm.getD "" ≠ ""))
    (hatb : ¬(b = "" ∧ i.event.single_at = some i.bid ∧ i.llm.getD "" ≠ ""))
    (hrel : i.conf.relevant_wake = 0 ∨ get_history_msg i.hist "assistant" 5 = [])
    (hshuta : ¬(i.conf.shutup ≠ 0 ∧ i.sent.shut a > i.conf.shutup))
    (hshutb : ¬(i.conf.shutup ≠ 0 ∧ i.sent.shut b > i.conf.shutup))
    (hins : i.conf.insult ≠ 0)
    (htha : i.sent.insult a > i.conf.insult)
    (hthb : i.sent.insult b > i.conf.insult)
    (hmult : 0 ≤ i.conf.sult_multiple)
    (hab : i.sent.insult a > i.sent.insult b) :
    ((on_group_msg { i with event := { i.event with message_str := a } }).memberOf
        i.gid i.uid).map (fun mm => mm.silence_until - i.now) =
      some (i.sent.insult a * i.conf.sult_multiple) ∧
    ((on_group_msg { i with event := { i.event with message_str := b } }).memberOf
        i.gid i.uid).map (fun mm => mm.silence_until - i.now) =
      some (i.sent.insult b * i.conf.sult_multiple) ∧
    i.sent.insult b * i.conf.sult_multiple ≤
      i.sent.insult a * i.conf.sult_multiple := by
  have ha := on_group_msg_insult { i with event := { i.event with message_str := a } }
    g m hg hm hbid hwl hbl hcd hfwa hbca hsh hsi hata hrel hshuta hins htha
  have hb := on_group_msg_insult { i with event := { i.event with message_str := b } }
    g m hg hm hbid hwl hbl hcd hfwb hbcb hsh hsi hatb hrel hshutb hins hthb
  exact ⟨map_silence_sub _ _ _ _ _ ha.1, map_silence_sub _ _ _ _ _ hb.1,
    mul_le_mul_of_nonneg_right hab.le hmult⟩

theorem claim_c9_witness :
    0 ≤ c9in.conf.sult_multiple ∧
    c9in.sent.insult "aa" > c9in.sent.insult "bb" ∧
    ((on_group_msg { c9in with event :=
        { c9in.event with message_str := "aa" } }).memberOf
        c9in.gid c9in.uid).map (fun mm => mm.silence_until - c9in.now) =
      some (c9in.sent.insult "aa" * c9in.conf.sult_multiple) ∧
    ((on_group_msg { c9in with event :=
        { c9in.event with message_str := "bb" } }).memberOf
        c9in.gid c9in.uid).map (fun mm => mm.silence_until - c9in.now) =
      some (c9in.sent.insult "bb" * c9in.conf.sult_multiple) ∧
    c9in.sent.insult "bb" * c9in.conf.sult_multiple ≤
      c9in.sent.insult "aa" * c9in.conf.sult_multiple := by
  have hne : ("bb" : String) ≠ "aa" := by decide
  have hgt : c9in.sent.insult "aa" > c9in.sent.insult "bb" := by
    simp only [c9in, c9sent, if_true]
    rw [if_neg hne]
    norm_num
  have htha : c9in.sent.insult "aa" > c9in.conf.insult := by
    simp only [c9in, c9sent, if_true]
    norm_num
  have hthb : c9in.sent.insult "bb" > c9in.conf.insult := by
    simp only [c9in, c9sent]
    rw [if_neg hne]
    norm_num
  have h := claim_c9 c9in g1group freshMember "aa" "bb" rfl rfl (by decide)
    (by decide) (by decide) (by norm_num [c9in, freshMember])
    (by norm_num [c9in, g1group]) (by norm_num [c9in, freshMember])
    (by decide) (by decide) (by decide) (by decide) (by decide) (by decide)
    (Or.inl rfl) (by norm_num [c9in]) (by norm_num [c9in])
    (by norm_num [c9in]) htha hthb (by norm_num [c9in]) hgt
  exact ⟨by norm_num [c9in], hgt, h⟩

end WakePro

namespace WakePro

open Similarity (strIn)

theorem event_flag_msg (c : Bool) (e : Event) :
    (if c = true then { e with is_at_or_wake_command := true } else e).message_str
      = e.message_str := by
  cases c <;> rfl

theorem member_wake_pend (c : Bool) (i : EvalInput) (m1 : MemberState) :
    (if c = true then
      { m1 with pend_cd := i.now + i.conf.pend_cd, last_wake := i.now }
     else m1).pend = m1.pend := by
  cases c <;> rfl

theorem post_checks_event_msg (i : EvalInput) (s3 : Store) (g2 : GroupState)
    (m2 : MemberState) (e2 : Event) (w : Bool) :
    (post_checks i s3 g2 m2 e2 w).event.message_str = e2.message_str := by
  simp only [post_checks]
  split_ifs <;> rfl

theorem post_checks_member_pend (i : EvalInput) (s3 : Store) (g2 : GroupState)
    (m2 : MemberState) (e2 : Event) (w : Bool)
    (hg2 : g2.members i.uid = some m2)
    (hs : (s3 i.gid).bind (fun gg => gg.members i.uid) = some m2) :
    ((post_checks i s3 g2 m2 e2 w).memberOf i.gid i.uid).map
      (fun mm => mm.pend) = some m2.pend := by
  simp only [post_checks]
  split_ifs <;>
    simp [EvalResult.memberOf, Store.put, GroupState.setMember, hg2, hs]

theorem cascade_part_raised (i : EvalInput) (s2 : Store) (g1 : GroupState)
    (e1 : Event) (m1 : MemberState) :
    (cascade_part i s2 g1 e1 m1).raised =
      (wake_cascade i.conf i.sent i.rand i.now m1.last_wake
        e1.is_at_or_wake_command i.event.message_str
        (get_history_msg i.hist "assistant" 5)).1 := by
  simp only [cascade_part]
  by_cases hc : (wake_cascade i.conf i.sent i.rand i.now m1.last_wake
      e1.is_at_or_wake_command i.event.message_str
      (get_history_msg i.hist "assistant" 5)).1 = true
  · rw [if_pos hc]
    exact hc.symm
  · rw [if_neg hc, post_checks_raised]
    exact ((Bool.not_eq_true _).mp hc).symm

theorem cascade_part_woke (i : EvalInput) (s2 : Store) (g1 : GroupState)
    (e1 : Event) (m1 : MemberState)
    (h : (wake_cascade i.conf i.sent i.rand i.now m1.last_wake
      e1.is_at_or_wake_command i.event.message_str
      (get_history_msg i.hist "assistant" 5)).1 = false) :
    (cascade_part i s2 g1 e1 m1).woke =
      (wake_cascade i.conf i.sent i.rand i.now m1.last_wake
        e1.is_at_or_wake_command i.event.message_str
        (get_history_msg i.hist "assistant" 5)).2 := by
  simp only [cascade_part, h, Bool.false_eq_true, if_false]
  rw [post_checks_woke]

theorem cascade_part_event_msg (i : EvalInput) (s2 : Store) (g1 : GroupState)
    (e1 : Event) (m1 : MemberState) :
    (cascade_part i s2 g1 e1 m1).event.message_str = e1.message_str := by
  simp only [cascade_part]
  by_cases hc : (wake_cascade i.conf i.sent i.rand i.now m1.last_wake
      e1.is_at_or_wake_command i.event.message_str
      (get_history_msg i.hist "assistant" 5)).1 = true
  · rw [if_pos hc]
  · rw [if_neg hc, post_checks_event_msg, event_flag_msg]

theorem cascade_part_member_pend (i : EvalInput) (s2 : Store) (g1 : GroupState)
    (e1 : Event) (m1 : MemberState)
    (hs2 : (s2 i.gid).bind (fun gg => gg.members i.uid) = some m1) :
    ((cascade_part i s2 g1 e1 m1).memberOf i.gid i.uid).map
      (fun mm => mm.pend) = some m1.pend := by
  simp only [cascade_part]
  by_cases hc : (wake_cascade i.conf i.sent i.rand i.now m1.last_wake
      e1.is_at_or_wake_command i.event.message_str
      (get_history_msg i.hist "assistant" 5)).1 = true
  · rw [if_pos hc]
    simp [EvalResult.memberOf, hs2]
  · rw [if_neg hc]
    rw [post_checks_member_pend _ _ _ _ _ _ (by simp [GroupState.setMember])
      (by simp [Store.put, GroupState.setMember]), member_wake_pend]

theorem pend_merge_msg (m : MemberState) (e : Event) (hne : m.pend ≠ []) :
    (pend_merge m e).1.message_str =
      String.intercalate " "
        ((m.pend.map (fun x => x.message_str) ++ [e.message_str]).reverse) := by
  have h1 : 0 < m.pend.length := List.length_pos.mpr hne
  simp [pend_merge, h1]

theorem pend_merge_pend (m : MemberState) (e : Event) (hne : m.pend ≠ []) :
    (pend_merge m e).2.pend =
      m.pend.map Event.stop ++ [(pend_merge m e).1] := by
  have h1 : 0 < m.pend.length := List.length_pos.mpr hne
  simp [pend_merge, h1]

end WakePro

namespace WakePro

open Similarity (strIn)

/-- C2 (amended): when a member inside the pending window already has
buffered events, all of them are marked stopped in the buffer and the
current event is appended with its text replaced by the space-joined
buffered texts in newest-to-oldest order (the reverse of the oldest-first
concatenation); the wake cascade, when it does not raise, is evaluated on
the original pre-merge text of the current message, not on the merged
text. -/
theorem claim_c2 (i : EvalInput) (g : GroupState) (m : MemberState)
    (hg : i.store i.gid = some g) (hm : g.members i.uid = some m)
    (hbid : ¬(i.uid = i.bid))
    (hwl : ¬(i.gid ≠ "" ∧ i.conf.group_whitelist ≠ [] ∧
      i.gid ∉ i.conf.group_whitelist))
    (hbl : i.uid ∉ i.conf.user_blacklist)
    (hcd : ¬(i.now - m.last_wake < i.conf.wake_cd))
    (hfw : ¬(i.conf.wake_forbidden_words.any
      (fun w => strIn w i.event.message_str) = true))
    (hbc : ¬((i.conf.block_builtin && BUILT_CMDS.any
      (fun c => strIn c i.event.message_str)) = true))
    (hsh : ¬(g.shutup_until > i.now))
    (hsi : ¬(m.silence_until > i.now))
    (hat : ¬(i.event.message_str = "" ∧ i.event.single_at = some i.bid ∧
      i.llm.getD "" ≠ ""))
    (hp : i.now - m.last_wake < i.conf.pend_cd)
    (hne : m.pend ≠ []) :
    (on_group_msg i).event.message_str =
      String.intercalate " "
        ((m.pend.map (fun e => e.message_str) ++ [i.event.message_str]).reverse) ∧
    ((on_group_msg i).memberOf i.gid i.uid).map (fun mm => mm.pend) =
      some (m.pend.map Event.stop ++ [(pend_merge m i.event).1]) ∧
    ((on_group_msg i).raised = false →
      (on_group_msg i).woke =
        (wake_cascade i.conf i.sent i.rand i.now m.last_wake
          i.event.is_at_or_wake_command i.event.message_str
          (get_history_msg i.hist "assistant" 5)).2) := by
  rw [on_group_msg_resolve i g m hg hm hbid hwl hbl]
  have hsi2 : ¬((match g.members i.uid with
      | some mm => mm.silence_until
      | none => 0) > i.now) := by
    rw [hm]
    exact hsi
  simp only [on_group_msg_member, if_neg hcd, if_neg hfw, if_neg hbc,
    if_neg hsh, if_neg hsi2]
  simp only [merge_part, if_neg hat, if_pos hp]
  refine ⟨?_, ?_, ?_⟩
  · rw [cascade_part_event_msg, pend_merge_msg m i.event hne]
  · rw [cascade_part_member_pend _ _ _ _ _
      (by simp [Store.put, GroupState.setMember]), pend_merge_pend m i.event hne]
  · intro hr
    rw [cascade_part_raised] at hr
    rw [cascade_part_woke _ _ _ _ _ hr, pend_merge_last_wake, pend_merge_flag]

/-- C2, as stated, is false at `c2in`: with one buffered event `"a"` and
current text `"b"`, the merged event text is `"b a"` (newest first), not
`"a b"`; and although the configured mention name `"a"` occurs in the
merged text, the cascade (which reads the original text `"b"`) does not
wake. -/
theorem claim_c2_counterexample :
    (on_group_msg c2in).event.message_str = "b a" ∧
    "b a" ≠ "a b" ∧
    c2in.conf.mention_wake = ["a"] ∧
    strIn "a" "b a" = true ∧
    (on_group_msg c2in).woke = false := by
  refine ⟨?_, by decide, rfl, by decide, ?_⟩ <;>
    · norm_num [on_group_msg, on_group_msg_member, merge_part, cascade_part,
        post_checks, get_group, c2in, c2group, c2member, evA, sent0,
        wake_cascade, pend_merge, get_history_msg, int_of_rat, Store.put,
        GroupState.setMember, Event.stop, strIn]
      try decide

theorem claim_c2_witness :
    (c2in.now - c2member.last_wake < c2in.conf.pend_cd) ∧ c2member.pend ≠ [] ∧
    ((on_group_msg c2in).event.message_str =
      String.intercalate " "
        ((c2member.pend.map (fun e => e.message_str) ++
          [c2in.event.message_str]).reverse) ∧
    ((on_group_msg c2in).memberOf c2in.gid c2in.uid).map (fun mm => mm.pend) =
      some (c2member.pend.map Event.stop ++ [(pend_merge c2member c2in.event).1]) ∧
    ((on_group_msg c2in).raised = false →
      (on_group_msg c2in).woke =
        (wake_cascade c2in.conf c2in.sent c2in.rand c2in.now c2member.last_wake
          c2in.event.is_at_or_wake_command c2in.event.message_str
          (get_history_msg c2in.hist "assistant" 5)).2)) := by
  refine ⟨by norm_num [c2in, c2member], by decide, ?_⟩
  exact claim_c2 c2in c2group c2member rfl rfl (by decide) (by decide)
    (by decide) (by norm_num [c2in, c2member]) (by decide) (by decide)
    (by norm_num [c2in, c2group]) (by norm_num [c2in, c2member]) (by decide)
    (by norm_num [c2in, c2member]) (by decide)

end WakePro

namespace WakePro

open Similarity (strIn)

/-- C3 (amended): when the group and the member entry already exist in the
store, every pre-cascade gating suppression (deny-list, wake cooldown,
forbidden word, blocked built-in command, group shutup, member silence)
stops the event and leaves the state store exactly as it was; on a
never-seen group or member, the handler may additionally insert a fresh
default-valued `GroupState`/`MemberState` before suppressing. -/
theorem claim_c3 (i : EvalInput) (g : GroupState) (m : MemberState)
    (hg : i.store i.gid = some g) (hm : g.members i.uid = some m)
    (hbid : ¬(i.uid = i.bid))
    (hwl : ¬(i.gid ≠ "" ∧ i.conf.group_whitelist ≠ [] ∧
      i.gid ∉ i.conf.group_whitelist))
    (hD : i.uid ∈ i.conf.user_blacklist ∨
      i.now - m.last_wake < i.conf.wake_cd ∨
      i.conf.wake_forbidden_words.any
        (fun w => strIn w i.event.message_str) = true ∨
      (i.conf.block_builtin && BUILT_CMDS.any
        (fun c => strIn c i.event.message_str)) = true ∨
      g.shutup_until > i.now ∨
      m.silence_until > i.now) :
    (on_group_msg i).store = i.store ∧
    (on_group_msg i).event.stopped = true ∧
    (on_group_msg i).woke = false ∧
    (on_group_msg i).reply = none ∧
    (on_group_msg i).raised = false := by
  by_cases hbl : i.uid ∈ i.conf.user_blacklist
  · simp only [on_group_msg, get_group, hg, if_neg hbid, if_neg hwl, if_pos hbl]
    simp [Event.stop]
  · rw [on_group_msg_resolve i g m hg hm hbid hwl hbl]
    have hD' := hD.resolve_left hbl
    have hmatch : (match g.members i.uid with
        | some mm => mm.silence_until
        | none => 0) = m.silence_until := by rw [hm]
    by_cases h1 : i.now - m.last_wake < i.conf.wake_cd
    · simp only [on_group_msg_member, if_pos h1]
      simp [Event.stop]
    by_cases h2 : i.conf.wake_forbidden_words.any
        (fun w => strIn w i.event.message_str) = true
    · simp only [on_group_msg_member, if_neg h1, if_pos h2]
      simp [Event.stop]
    by_cases h3 : (i.conf.block_builtin && BUILT_CMDS.any
        (fun c => strIn c i.event.message_str)) = true
    · simp only [on_group_msg_member, if_neg h1, if_neg h2, if_pos h3]
      simp [Event.stop]
    by_cases h4 : g.shutup_until > i.now
    · simp only [on_group_msg_member, if_neg h1, if_neg h2, if_neg h3, if_pos h4]
      simp [Event.stop]
    by_cases h5 : m.silence_until > i.now
    · simp only [on_group_msg_member, if_neg h1, if_neg h2, if_neg h3,
        if_neg h4, if_pos (hmatch ▸ h5)]
      simp [Event.stop]
    · rcases hD' with h | h | h | h | h <;> [exact absurd h h1;
        exact absurd h h2; exact absurd h h3; exact absurd h h4;
        exact absurd h h5]

/-- C3, as stated, is false at `c3in`: the deny-listed sender's message is
suppressed, but evaluating it in a never-seen group lazily inserts a fresh
`GroupState`, so the state store is not left exactly as it was. -/
theorem claim_c3_counterexample :
    (on_group_msg c3in).event.stopped = true ∧
    c3in.store "g1" = none ∧
    ((on_group_msg c3in).store "g1").isSome = true := by
  refine ⟨?_, rfl, ?_⟩ <;>
    · norm_num [on_group_msg, get_group, c3in, Store.put, Event.stop, sent0]
      try decide

theorem claim_c3_witness :
    c3in2.uid ∈ c3in2.conf.user_blacklist ∧
    ((on_group_msg c3in2).store = c3in2.store ∧
     (on_group_msg c3in2).event.stopped = true ∧
     (on_group_msg c3in2).woke = false ∧
     (on_group_msg c3in2).reply = none ∧
     (on_group_msg c3in2).raised = false) :=
  ⟨by decide, claim_c3 c3in2 g1group freshMember rfl rfl (by decide)
    (by decide) (Or.inl (by decide))⟩

end WakePro

namespace WakePro

open Similarity (strIn)

theorem post_checks_member_pendcd (i : EvalInput)
    (s3 : Store) (g2 : GroupState) (m2 : MemberState) (e2 : Event) (w : Bool)
    (hg2 : g2.members i.uid = some m2)
    (hs : (s3 i.gid).bind (fun gg => gg.members i.uid) = some m2) :
    ((post_checks i s3 g2 m2 e2 w).memberOf i.gid i.uid).map
      (fun mm => mm.pend_cd) = some m2.pend_cd := by
  simp only [post_checks]
  split_ifs <;>
    simp [EvalResult.memberOf, Store.put, GroupState.setMember, hg2, hs]

theorem post_checks_obs (i : EvalInput) (s3 s3' : Store) (g2 g2' : GroupState)
    (m2 m2' : MemberState) (e2 : Event) (w : Bool) :
    (post_checks i s3' g2' m2' e2 w).event = (post_checks i s3 g2 m2 e2 w).event ∧
    (post_checks i s3' g2' m2' e2 w).reply = (post_checks i s3 g2 m2 e2 w).reply ∧
    (post_checks i s3' g2' m2' e2 w).raised = (post_checks i s3 g2 m2 e2 w).raised ∧
    (post_checks i s3' g2' m2' e2 w).woke = (post_checks i s3 g2 m2 e2 w).woke := by
  simp only [post_checks]
  split_ifs <;> exact ⟨rfl, rfl, rfl, rfl⟩

theorem cascade_part_obs (i : EvalInput) (s2 s2' : Store) (g1 g1' : GroupState)
    (e1 : Event) (m1 : MemberState) (p : ℚ) :
    (cascade_part i s2' g1' e1 { m1 with pend_cd := p }).event =
      (cascade_part i s2 g1 e1 m1).event ∧
    (cascade_part i s2' g1' e1 { m1 with pend_cd := p }).reply =
      (cascade_part i s2 g1 e1 m1).reply ∧
    (cascade_part i s2' g1' e1 { m1 with pend_cd := p }).raised =
      (cascade_part i s2 g1 e1 m1).raised ∧
    (cascade_part i s2' g1' e1 { m1 with pend_cd := p }).woke =
      (cascade_part i s2 g1 e1 m1).woke := by
  simp only [cascade_part]
  by_cases hc : (wake_cascade i.conf i.sent i.rand i.now m1.last_wake
      e1.is_at_or_wake_command i.event.message_str
      (get_history_msg i.hist "assistant" 5)).1 = true
  · rw [if_pos hc, if_pos hc]
    exact ⟨rfl, rfl, rfl, rfl⟩
  · rw [if_neg hc, if_neg hc]
    exact post_checks_obs _ _ _ _ _ _ _ _ _

theorem merge_part_obs (i : EvalInput) (s1 s1' : Store) (g g' : GroupState)
    (m : MemberState) (p : ℚ) :
    (merge_part i s1' g' { m with pend_cd := p }).event =
      (merge_part i s1 g m).event ∧
    (merge_part i s1' g' { m with pend_cd := p }).reply =
      (merge_part i s1 g m).reply ∧
    (merge_part i s1' g' { m with pend_cd := p }).raised =
      (merge_part i s1 g m).raised ∧
    (merge_part i s1' g' { m with pend_cd := p }).woke =
      (merge_part i s1 g m).woke := by
  simp only [merge_part, pend_merge_pendcd]
  by_cases hp : i.now - m.last_wake < i.conf.pend_cd
  · rw [if_pos hp, if_pos hp]
    by_cases ha : i.event.message_str = "" ∧ i.event.single_at = some i.bid ∧
        i.llm.getD "" ≠ ""
    · rw [if_pos ha, if_pos ha]
      exact ⟨rfl, rfl, rfl, rfl⟩
    · rw [if_neg ha, if_neg ha]
      exact cascade_part_obs _ _ _ _ _ _ _ _
  · rw [if_neg hp, if_neg hp]
    by_cases ha : i.event.message_str = "" ∧ i.event.single_at = some i.bid ∧
        i.llm.getD "" ≠ ""
    · rw [if_pos ha, if_pos ha]
      exact ⟨rfl, rfl, rfl, rfl⟩
    · rw [if_neg ha, if_neg ha]
      exact cascade_part_obs _ _ _ _ _ _ _ _

theorem member_obs (i : EvalInput) (s1 s1' : Store) (g g' : GroupState)
    (m : MemberState) (p : ℚ)
    (hsh : g'.shutup_until = g.shutup_until)
    (hm : g.members i.uid = some m)
    (hm' : g'.members i.uid = some { m with pend_cd := p }) :
    (on_group_msg_member i s1' g' { m with pend_cd := p }).event =
      (on_group_msg_member i s1 g m).event ∧
    (on_group_msg_member i s1' g' { m with pend_cd := p }).reply =
      (on_group_msg_member i s1 g m).reply ∧
    (on_group_msg_member i s1' g' { m with pend_cd := p }).raised =
      (on_group_msg_member i s1 g m).raised ∧
    (on_group_msg_member i s1' g' { m with pend_cd := p }).woke =
      (on_group_msg_member i s1 g m).woke := by
  simp only [on_group_msg_member, hm, hm', hsh]
  split_ifs <;>
    first
    | exact ⟨rfl, rfl, rfl, rfl⟩
    | exact merge_part_obs _ _ _ _ _ _ _

theorem member_store_irrel (i : EvalInput) (X : Store) (s1 : Store)
    (g : GroupState) (m : MemberState) :
    on_group_msg_member { i with store := X } s1 g m =
      on_group_msg_member i s1 g m := rfl

end WakePro

namespace WakePro

theorem cascade_part_wake_pendcd (i : EvalInput) (s2 : Store) (g1 : GroupState)
    (e1 : Event) (m1 : MemberState)
    (h : (cascade_part i s2 g1 e1 m1).woke = true) :
    ((cascade_part i s2 g1 e1 m1).memberOf i.gid i.uid).map
      (fun mm => mm.pend_cd) = some (i.now + i.conf.pend_cd) := by
  simp only [cascade_part] at h ⊢
  by_cases hc : (wake_cascade i.conf i.sent i.rand i.now m1.last_wake
      e1.is_at_or_wake_command i.event.message_str
      (get_history_msg i.hist "assistant" 5)).1 = true
  · rw [if_pos hc] at h
    simp at h
  · rw [if_neg hc] at h ⊢
    rw [post_checks_woke] at h
    rw [post_checks_member_pendcd _ _ _ _ _ _ (by simp [GroupState.setMember])
      (by simp [Store.put, GroupState.setMember])]
    rw [if_pos h]

theorem merge_part_wake_pendcd (i : EvalInput) (s1 : Store) (g : GroupState)
    (m : MemberState) (h : (merge_part i s1 g m).woke = true) :
    ((merge_part i s1 g m).memberOf i.gid i.uid).map
      (fun mm => mm.pend_cd) = some (i.now + i.conf.pend_cd) := by
  simp only [merge_part] at h ⊢
  by_cases ha : i.event.message_str = "" ∧ i.event.single_at = some i.bid ∧
      i.llm.getD "" ≠ ""
  · rw [if_pos ha] at h
    simp at h
  · rw [if_neg ha] at h ⊢
    by_cases hp : i.now - m.last_wake < i.conf.pend_cd
    · rw [if_pos hp] at h ⊢
      exact cascade_part_wake_pendcd _ _ _ _ _ h
    · rw [if_neg hp] at h ⊢
      exact cascade_part_wake_pendcd _ _ _ _ _ h

theorem member_wake_pendcd (i : EvalInput) (s1 : Store) (g : GroupState)
    (m : MemberState) (h : (on_group_msg_member i s1 g m).woke = true) :
    ((on_group_msg_member i s1 g m).memberOf i.gid i.uid).map
      (fun mm => mm.pend_cd) = some (i.now + i.conf.pend_cd) := by
  simp only [on_group_msg_member] at h ⊢
  split_ifs at h ⊢
  all_goals first
    | exact merge_part_wake_pendcd _ _ _ _ h
    | simp at h

theorem outer_wake_pendcd (i : EvalInput)
    (h : (on_group_msg i).woke = true) :
    ((on_group_msg i).memberOf i.gid i.uid).map
      (fun mm => mm.pend_cd) = some (i.now + i.conf.pend_cd) := by
  simp only [on_group_msg] at h ⊢
  split_ifs at h ⊢
  all_goals try simp at h
  all_goals
    rcases hm2 : (get_group i.store i.gid).1.members i.uid with _ | mm <;>
      rw [hm2] at h <;> exact member_wake_pendcd _ _ _ _ h

/-- C10: the stored `MemberState.pend_cd` is write-only: two evaluator runs
on the same message that differ only in the stored `pend_cd` value produce
the same final event (text, flags), canned reply, raise status and wake
decision; and whenever the run wakes, the stored `pend_cd` is rewritten to
`now + pend_cd_window`. -/
theorem claim_c10 (i : EvalInput) (g : GroupState) (m : MemberState) (p : ℚ)
    (hg : i.store i.gid = some g) (hm : g.members i.uid = some m) :
    ((on_group_msg { i with
        store := (Store.put i.store i.gid
          (g.setMember i.uid { m with pend_cd := p })) }).event =
      (on_group_msg i).event ∧
     (on_group_msg { i with
        store := (Store.put i.store i.gid
          (g.setMember i.uid { m with pend_cd := p })) }).reply =
      (on_group_msg i).reply ∧
     (on_group_msg { i with
        store := (Store.put i.store i.gid
          (g.setMember i.uid { m with pend_cd := p })) }).raised =
      (on_group_msg i).raised ∧
     (on_group_msg { i with
        store := (Store.put i.store i.gid
          (g.setMember i.uid { m with pend_cd := p })) }).woke =
      (on_group_msg i).woke) ∧
    ((on_group_msg i).woke = true →
      ((on_group_msg i).memberOf i.gid i.uid).map (fun mm => mm.pend_cd) =
        some (i.now + i.conf.pend_cd)) := by
  refine ⟨?_, fun hw => outer_wake_pendcd i hw⟩
  simp only [on_group_msg, get_group, Store.put, GroupState.setMember, hg, hm,
    eq_self_iff_true, if_true, member_store_irrel]
  split_ifs <;>
    first
    | exact ⟨rfl, rfl, rfl, rfl⟩
    | exact member_obs i i.store _ g _ m p rfl hm (by simp)

end WakePro

namespace WakePro

theorem claim_c10_witness :
    c10in.store c10in.gid = some c10group ∧
    c10group.members c10in.uid = some c10member ∧
    (((on_group_msg { c10in with
        store := (Store.put c10in.store c10in.gid
          (c10group.setMember c10in.uid { c10member with pend_cd := 5 })) }).event =
      (on_group_msg c10in).event ∧
     (on_group_msg { c10in with
        store := (Store.put c10in.store c10in.gid
          (c10group.setMember c10in.uid { c10member with pend_cd := 5 })) }).reply =
      (on_group_msg c10in).reply ∧
     (on_group_msg { c10in with
        store := (Store.put c10in.store c10in.gid
          (c10group.setMember c10in.uid { c10member with pend_cd := 5 })) }).raised =
      (on_group_msg c10in).raised ∧
     (on_group_msg { c10in with
        store := (Store.put c10in.store c10in.gid
          (c10group.setMember c10in.uid { c10member with pend_cd := 5 })) }).woke =
      (on_group_msg c10in).woke) ∧
    ((on_group_msg c10in).woke = true →
      ((on_group_msg c10in).memberOf c10in.gid c10in.uid).map
        (fun mm => mm.pend_cd) = some (c10in.now + c10in.conf.pend_cd))) :=
  ⟨rfl, rfl, claim_c10 c10in c10group c10member 5 rfl rfl⟩

end WakePro
